import Mathlib

/-!
Verification of the filtering layer of the moor pager
(`internal/filteringReader.go`) and of the in-memory test screen
(`twin` package, `FakeScreen`).

The Go code is shallowly embedded: every method of `FilteringReader`
becomes a Lean function that takes the reader state and returns the
result together with the updated state.  Go machine integers are
modelled as `Int`; the only places where 64-bit overflow matters are
explicitly clamped in the original code (`NonWrappingAdd`), and the
clamps are reproduced here against `maxInt = 2^63 - 1`.

The `linemetadata` and `reader` packages of the repository are not part
of the sources under verification; the operations of theirs that
`filteringReader.go` uses are modelled from the specification (each such
definition carries a doc comment starting with `Modelled from the
spec:`).
-/

namespace Moor

/-- The largest value of a 64-bit Go `int` (`math.MaxInt` on 64-bit platforms). -/
def maxInt : Int := 2 ^ 63 - 1

/-- Modelled from the spec: `nonWrappingAdd(delta)` of the Line Index component
(§4.1), a bounded, non-circular addition.  Adding a positive delta saturates at
the machine maximum instead of overflowing; adding a non-positive delta
saturates at zero instead of going negative (§4.2 and §9 require the shifted
window start to be clamped to zero). -/
def nonWrappingAdd (i offset : Int) : Int :=
  if 0 < offset then
    if maxInt - offset < i then maxInt else i + offset
  else
    if i < -offset then 0 else i + offset

/-- Modelled from the spec: `countTo(other)` of the Line Index component
(§4.1), the number of positions between two indices, inclusive. -/
def countLinesTo (i other : Int) : Int := other - i + 1

/-- Modelled from the spec: construction of a Line Index from a sequence
length (§4.1).  The status algorithm (§4.2) requires the 1-based rendering of
`fromLength(n)` to display exactly `n`, and the windowing clamp (§4.2)
compares the requested end index against the last valid filtered index, so
`fromLength(n)` denotes the zero-based index of the last element, `n - 1`. -/
def indexFromLengthVal (n : Int) : Int := n - 1

/-- Modelled from the spec: `format()` of the Line Index component (§4.1),
the 1-based human-readable rendering of an index. -/
def formatIndex (i : Int) : String := toString (i + 1)

/-- A line of text.  Rendering to plain text may depend on the line's
position, so `plain` takes the index it is resolved at (the Go code calls
`line.Line.Plain(&line.Index)`). -/
structure Line where
  plain : Int → String

/-- `reader.NumberedLine`: a line together with its index within the current
view and its original display number. -/
structure NumberedLine where
  line : Line
  index : Int
  number : Int

/-- `reader.InputLines`: the result of a windowed read — the lines plus a
status text. -/
structure InputLines where
  Lines : List NumberedLine
  StatusText : String

/-- Modelled from the spec: the backing line source (§6), an external
collaborator exposing `lineCount`, `shouldShowLineCount`, `line` and `lines`.
It is modelled as a well-behaved in-memory source: a list of lines, a flag
telling whether its total should be shown, and the status text it attaches to
its own batches. -/
structure BackingSource where
  lines : List Line
  showLineCount : Bool
  statusText : String

/-- Modelled from the spec: the backing source's lines each paired with its
own zero-based index and its 1-based original display number. -/
def BackingSource.allNumbered (bs : BackingSource) : List NumberedLine :=
  bs.lines.enum.map (fun q => { line := q.2, index := (q.1 : Int), number := (q.1 : Int) + 1 })

/-- Modelled from the spec: `lineCount()` of the backing source. -/
def BackingSource.getLineCount (bs : BackingSource) : Int := (bs.lines.length : Int)

/-- Modelled from the spec: `lines(firstIndex, wantedCount)` of the backing
source — the available lines starting at `firstIndex`, at most `wantedCount`
of them. -/
def BackingSource.getLines (bs : BackingSource) (firstLine wantedLineCount : Int) : InputLines :=
  { Lines := (bs.allNumbered.drop firstLine.toNat).take wantedLineCount.toNat
    StatusText := bs.statusText }

/-- Modelled from the spec: `line(index)` of the backing source — the entry at
that index, or absent when out of range. -/
def BackingSource.getLine (bs : BackingSource) (index : Int) : Option NumberedLine :=
  if index < 0 then none else bs.allNumbered.get? index.toNat

/-- The `FilteringReader` state: the backing source, the current contents of
the shared pattern cell (`**regexp.Regexp`, where a compiled pattern is
identified by its source string and `none` models a nil pattern), the cached
filtered lines (`none` means no filtering has happened yet), and the two
invalidation baselines recorded when the cache was built. -/
structure FilteringReader where
  BackingReader : BackingSource
  FilterPattern : Option String
  filteredLinesCache : Option (List NumberedLine)
  unfilteredLineCountWhenCaching : Int
  filterPatternWhenCaching : Option String

/-- The string form of a possibly-nil pattern: the Go code renders a nil
pattern as the empty string when comparing baselines. -/
def patStr (p : Option String) : String := p.getD ""

/-- Go slice expression `xs[lo:hi]`: defined when `0 ≤ lo ≤ hi ≤ len(xs)`,
otherwise a runtime panic, modelled as `none`. -/
def goSlice {α : Type} (xs : List α) (lo hi : Int) : Option (List α) :=
  if 0 ≤ lo ∧ lo ≤ hi ∧ hi ≤ (xs.length : Int) then
    some ((xs.drop lo.toNat).take (hi - lo).toNat)
  else none

section FilteringOps

variable (MatchString : String → String → Bool)

/-- The filter test of `rebuildCache`'s loop: a line is dropped exactly when a
pattern is present, its string form is non-empty, and the line's plain text —
resolved at the line's own index — does not match it. -/
def lineFilteredOut (p : Option String) (nl : NumberedLine) : Bool :=
  p.isSome && 0 < (patStr p).length && !(MatchString (patStr p) (nl.line.plain nl.index))

/-- The loop body of `rebuildCache`: walk the backing lines, keep those not
filtered out, and give the kept lines fresh contiguous zero-based indices
(`resultIndex`) while preserving their original numbers. -/
def buildCacheLines (p : Option String) : List NumberedLine → Int → List NumberedLine
  | [], _ => []
  | nl :: rest, resultIndex =>
    if lineFilteredOut MatchString p nl then
      buildCacheLines p rest resultIndex
    else
      { line := nl.line, index := resultIndex, number := nl.number } ::
        buildCacheLines p rest (resultIndex + 1)

/-- `FilteringReader.rebuildCache`: record the backing source's current line
count and the current pattern as the new baselines, read the whole backing
source (from index zero, `math.MaxInt` lines), filter it, and replace the
cache wholesale. -/
def rebuildCache (f : FilteringReader) : FilteringReader :=
  { f with
    unfilteredLineCountWhenCaching := f.BackingReader.getLineCount
    filterPatternWhenCaching := f.FilterPattern
    filteredLinesCache :=
      some (buildCacheLines MatchString f.FilterPattern
        (f.BackingReader.getLines 0 maxInt).Lines 0) }

/-- `FilteringReader.getAllLines`: serve the cache, rebuilding it first when
it is absent, when the backing source's line count differs from the recorded
baseline, or when the current pattern's string form differs from the recorded
baseline (the source performs these three checks as successive early-return
tests, each followed by the same rebuild-and-return; they are gathered in one
disjunction here). -/
def getAllLines (f : FilteringReader) : List NumberedLine × FilteringReader :=
  match f.filteredLinesCache with
  | none =>
    let f2 := rebuildCache MatchString f
    (f2.filteredLinesCache.getD [], f2)
  | some cached =>
    if f.unfilteredLineCountWhenCaching ≠ f.BackingReader.getLineCount ∨
        patStr f.FilterPattern ≠ patStr f.filterPatternWhenCaching then
      let f2 := rebuildCache MatchString f
      (f2.filteredLinesCache.getD [], f2)
    else
      (cached, f)

/-- `FilteringReader.shouldPassThrough`: true when the pattern cell holds nil
or a pattern whose string form is empty; in that case the cache is discarded
as a side effect. -/
def shouldPassThrough (f : FilteringReader) : Bool × FilteringReader :=
  match f.FilterPattern with
  | none => (true, { f with filteredLinesCache := none })
  | some p =>
    if p.length = 0 then (true, { f with filteredLinesCache := none })
    else (false, f)

/-- `FilteringReader.GetLineCount`. -/
def GetLineCount (f : FilteringReader) : Int × FilteringReader :=
  let pass := shouldPassThrough f
  if pass.1 then (pass.2.BackingReader.getLineCount, pass.2)
  else
    let all := getAllLines MatchString pass.2
    ((all.1.length : Int), all.2)

/-- `FilteringReader.ShouldShowLineCount` consists of a single `panic` call;
the abort is modelled as `none : Option Bool` — no boolean is ever produced. -/
def ShouldShowLineCount (_ : FilteringReader) : Option Bool := none

/-- `FilteringReader.GetLine`. -/
def GetLine (f : FilteringReader) (index : Int) : Option NumberedLine × FilteringReader :=
  let pass := shouldPassThrough f
  if pass.1 then (pass.2.BackingReader.getLine index, pass.2)
  else
    let all := getAllLines MatchString pass.2
    if index < 0 ∨ (all.1.length : Int) ≤ index then (none, all.2)
    else (all.1.get? index.toNat, all.2)

/-- `FilteringReader.createStatus`.  The percentage in the source is
`int(math.Floor(100 * float64(lastLine.Index()+1) / float64(acceptedCount)))`;
it is modelled as exact floor division, with which the float64 computation
coincides for every count below `2^46` (the numerator `100*(l+1)` is then an
exact float, the quotient lies in `(0, 100]`, and a correctly rounded
division error below `2^-46` cannot carry the value across an integer
boundary because the exact quotient is at distance at least
`1/acceptedCount > 100 * 2^-53` from any integer it does not equal). -/
def createStatus (f : FilteringReader) (lastLine : Option Int) : String × FilteringReader :=
  let baseCount := f.BackingReader.getLineCount
  if baseCount = 0 then ("Filtered: No input lines", f)
  else
    let baseCountString :=
      if f.BackingReader.showLineCount then
        "/" ++ formatIndex (indexFromLengthVal baseCount)
      else ""
    match lastLine with
    | none => ("Filtered: 0" ++ baseCountString ++ " lines  100%", f)
    | some lastIdx =>
      let counted := GetLineCount MatchString f
      let acceptedCount := counted.1
      let acceptedCountString := formatIndex (indexFromLengthVal acceptedCount)
      let percent := Int.ediv (100 * (lastIdx + 1)) acceptedCount
      let lineString :=
        if (0 < baseCountString.length ∧ baseCount ≠ 1) ∨
            (baseCountString.length = 0 ∧ acceptedCount ≠ 1) then "lines"
        else "line"
      ("Filtered: " ++ acceptedCountString ++ baseCountString ++ " " ++ lineString
          ++ "  " ++ toString percent ++ "%", counted.2)

/-- The body of `FilteringReader.GetLines`; `recur` stands for the method's
self-call (the clamp-and-shift re-invocation near the end). -/
def GetLinesBody (recur : FilteringReader → Int → Int → Option (InputLines × FilteringReader))
    (f : FilteringReader) (firstLine wantedLineCount : Int) :
    Option (InputLines × FilteringReader) :=
  let pass := shouldPassThrough f
  if pass.1 then
    some (pass.2.BackingReader.getLines firstLine wantedLineCount, pass.2)
  else
    let all := getAllLines MatchString pass.2
    let acceptedLines := all.1
    if acceptedLines.length = 0 ∨ wantedLineCount = 0 then
      let status := createStatus MatchString all.2 none
      some ({ Lines := [], StatusText := status.1 }, status.2)
    else
      let lastLine := nonWrappingAdd firstLine (wantedLineCount - 1)
      let maxLineIndex := indexFromLengthVal (acceptedLines.length : Int)
      if maxLineIndex < lastLine then
        let lastLine2 := maxLineIndex
        let firstLine2 := nonWrappingAdd lastLine2 (1 - wantedLineCount)
        recur all.2 firstLine2 (countLinesTo firstLine2 lastLine2)
      else
        match goSlice acceptedLines firstLine (firstLine + wantedLineCount) with
        | none => none
        | some sliced =>
          let status := createStatus MatchString all.2 (some lastLine)
          some ({ Lines := sliced, StatusText := status.1 }, status.2)

/-- `FilteringReader.GetLines` with a fuel argument making the source's
self-recursion structurally terminating.  Fuel exhaustion yields `none`;
lemma `GetLinesFuel_two_enough` below shows that two units of fuel already
compute the fixpoint (the corrected re-invocation never recurses again), so
`GetLines` uses fuel 2. -/
def GetLinesFuel : Nat → FilteringReader → Int → Int → Option (InputLines × FilteringReader)
  | 0 => fun _ _ _ => none
  | fuel + 1 => GetLinesBody MatchString (GetLinesFuel fuel)

/-- `FilteringReader.GetLines`. -/
def GetLines (f : FilteringReader) (firstLine wantedLineCount : Int) :
    Option (InputLines × FilteringReader) :=
  GetLinesFuel MatchString 2 f firstLine wantedLineCount

end FilteringOps

/-! ### The `twin` package's `FakeScreen`

`StyledRune` and its `Width()` method live outside the verified sources, so
the style type is kept abstract and the rune-width computation is a parameter
(`Width : Char → Int`). -/

/-- `twin.StyledRune`: a rune together with its style. -/
structure StyledRune (Style : Type) where
  rune : Char
  style : Style

/-- `twin.NewStyledRune`. -/
def NewStyledRune {Style : Type} (c : Char) (s : Style) : StyledRune Style :=
  { rune := c, style := s }

/-- `twin.FakeScreen`: a width, a height, and a `height × width` matrix of
cells (rows of columns, as allocated by `NewFakeScreen`). -/
structure FakeScreen (Style : Type) where
  width : Int
  height : Int
  cells : List (List (StyledRune Style))

/-- The in-place store `screen.cells[row][column] = v`, modelled functionally;
on a screen built by `NewFakeScreen` the indices used by `SetCell` are always
within the matrix. -/
def FakeScreen.storeCell {Style : Type} (screen : FakeScreen Style) (row column : Int)
    (v : StyledRune Style) : FakeScreen Style :=
  { screen with
    cells := screen.cells.set row.toNat ((screen.cells.getD row.toNat []).set column.toNat v) }

/-- `FakeScreen.SetCell`, parameterized by the rune-width function
`Width` (the `StyledRune.Width()` method, defined outside these sources). -/
def FakeScreen.SetCell {Style : Type} (Width : Char → Int) (screen : FakeScreen Style)
    (column row : Int) (styledRune : StyledRune Style) : Int × FakeScreen Style :=
  if column < 0 then (Width styledRune.rune, screen)
  else if row < 0 then (Width styledRune.rune, screen)
  else if screen.width ≤ column then (Width styledRune.rune, screen)
  else if screen.height ≤ row then (Width styledRune.rune, screen)
  else if screen.width < column + Width styledRune.rune then
    (Width styledRune.rune, screen.storeCell row column (NewStyledRune ' ' styledRune.style))
  else
    (Width styledRune.rune, screen.storeCell row column styledRune)

/-- `twin.NewFakeScreen`: a `height × width` matrix of zero-valued cells
(the zero value of the abstract style is passed in as `z`). -/
def NewFakeScreen {Style : Type} (z : Style) (width height : Int) : FakeScreen Style :=
  { width := width
    height := height
    cells := List.replicate height.toNat (List.replicate width.toNat (NewStyledRune (Char.ofNat 0) z)) }

/-! ### Concrete instances used by the witness theorems -/

/-- A line whose plain text is the same at every position. -/
def mkLine (s : String) : Line := { plain := fun _ => s }

/-- The matcher used by the witnesses: a pattern matches a text when it is a
prefix of it. -/
def sampleMatch : String → String → Bool := fun p s => p.data.isPrefixOf s.data

/-- The spec's worked example: backing lines cat, dog, cataract, doghouse,
bird, with the total shown. -/
def sampleBacking : BackingSource :=
  { lines := [mkLine "cat", mkLine "dog", mkLine "cataract", mkLine "doghouse", mkLine "bird"]
    showLineCount := true
    statusText := "5 lines  100%" }

/-- A freshly constructed filtering reader over the worked example with the
pattern cat. -/
def sampleReader : FilteringReader :=
  { BackingReader := sampleBacking
    FilterPattern := some "cat"
    filteredLinesCache := none
    unfilteredLineCountWhenCaching := 0
    filterPatternWhenCaching := none }

/-- The worked example with the pattern cell cleared. -/
def samplePassReader : FilteringReader :=
  { sampleReader with FilterPattern := none }

/-- A filtering reader over an empty backing source. -/
def sampleEmptyReader : FilteringReader :=
  { sampleReader with
    BackingReader := { lines := [], showLineCount := true, statusText := "" } }

/-! ### Supporting lemmas -/

section FilteringLemmas

variable (MatchString : String → String → Bool)

/-- The cache contents produced by a rebuild in a given state. -/
def freshCache (f : FilteringReader) : List NumberedLine :=
  buildCacheLines MatchString f.FilterPattern (f.BackingReader.getLines 0 maxInt).Lines 0

/-- The number of lines of a backing contents whose plain text — resolved at
the line's own index — matches the pattern string `p`. -/
def matchingLineCount (p : String) (lines : List Line) : Nat :=
  lines.enum.countP (fun q => MatchString p (q.2.plain (q.1 : Int)))

/-- Consistency of a reader state: whenever the cache is present and both
baselines agree with the current state, the cache holds exactly what a rebuild
in the current state would produce.  A freshly constructed reader (absent
cache) satisfies this trivially, and every operation preserves it. -/
def CacheInv (f : FilteringReader) : Prop :=
  ∀ c, f.filteredLinesCache = some c →
    f.unfilteredLineCountWhenCaching = f.BackingReader.getLineCount →
    patStr f.filterPatternWhenCaching = patStr f.FilterPattern →
    c = freshCache MatchString f

/-- `g` differs from `f` at most in the reader's own cache and baseline
fields: the backing source and the pattern cell — the only other fields of the
state — are untouched. -/
def SameExternals (f g : FilteringReader) : Prop :=
  g.BackingReader = f.BackingReader ∧ g.FilterPattern = f.FilterPattern

theorem rebuildCache_eq (f : FilteringReader) :
    rebuildCache MatchString f =
      { f with
        unfilteredLineCountWhenCaching := f.BackingReader.getLineCount
        filterPatternWhenCaching := f.FilterPattern
        filteredLinesCache := some (freshCache MatchString f) } := rfl

/-- With an active pattern (present, non-empty string form) `shouldPassThrough`
answers false and leaves the state untouched. -/
theorem shouldPassThrough_active (f : FilteringReader) (p : String)
    (hp : f.FilterPattern = some p) (hl : p.length ≠ 0) :
    shouldPassThrough f = (false, f) := by
  simp [shouldPassThrough, hp, hl]

/-- With the pattern absent or empty, `shouldPassThrough` answers true and
discards the cache. -/
theorem shouldPassThrough_pass (f : FilteringReader)
    (hp : f.FilterPattern = none ∨ f.FilterPattern = some "") :
    shouldPassThrough f = (true, { f with filteredLinesCache := none }) := by
  rcases hp with h | h <;> simp [shouldPassThrough, h]

/-- When the cache is present and both baselines agree with the current state,
`getAllLines` serves the cache and does not change the state. -/
theorem getAllLines_serve (f : FilteringReader) (c : List NumberedLine)
    (hc : f.filteredLinesCache = some c)
    (hcount : f.unfilteredLineCountWhenCaching = f.BackingReader.getLineCount)
    (hpat : patStr f.FilterPattern = patStr f.filterPatternWhenCaching) :
    getAllLines MatchString f = (c, f) := by
  simp [getAllLines, hc, hcount, hpat]

/-- When the cache is absent or either baseline mismatches, `getAllLines`
rebuilds. -/
theorem getAllLines_rebuild (f : FilteringReader)
    (h : f.filteredLinesCache = none ∨
        f.unfilteredLineCountWhenCaching ≠ f.BackingReader.getLineCount ∨
        patStr f.FilterPattern ≠ patStr f.filterPatternWhenCaching) :
    getAllLines MatchString f = (freshCache MatchString f, rebuildCache MatchString f) := by
  rcases hc : f.filteredLinesCache with _ | c
  · simp [getAllLines, hc, rebuildCache_eq]
  · rcases h with h | h
    · exact absurd hc (by simp [h])
    · have : f.unfilteredLineCountWhenCaching ≠ f.BackingReader.getLineCount ∨
          patStr f.FilterPattern ≠ patStr f.filterPatternWhenCaching := h
      simp [getAllLines, hc, rebuildCache_eq, if_pos this]

/-- After any `getAllLines` call: the backing source and the pattern cell are
untouched, the cache holds exactly the returned list, and both baselines agree
with the current state. -/
theorem getAllLines_state (f : FilteringReader) :
    (getAllLines MatchString f).2.BackingReader = f.BackingReader ∧
    (getAllLines MatchString f).2.FilterPattern = f.FilterPattern ∧
    (getAllLines MatchString f).2.filteredLinesCache = some (getAllLines MatchString f).1 ∧
    (getAllLines MatchString f).2.unfilteredLineCountWhenCaching =
      (getAllLines MatchString f).2.BackingReader.getLineCount ∧
    patStr (getAllLines MatchString f).2.filterPatternWhenCaching =
      patStr (getAllLines MatchString f).2.FilterPattern := by
  rcases hc : f.filteredLinesCache with _ | c
  · rw [getAllLines_rebuild MatchString f (Or.inl hc)]
    simp [rebuildCache_eq]
  · by_cases h : f.unfilteredLineCountWhenCaching ≠ f.BackingReader.getLineCount ∨
        patStr f.FilterPattern ≠ patStr f.filterPatternWhenCaching
    · rw [getAllLines_rebuild MatchString f (Or.inr h)]
      simp [rebuildCache_eq]
    · push_neg at h
      rw [getAllLines_serve MatchString f c hc h.1 h.2]
      exact ⟨rfl, rfl, hc, h.1.symm ▸ rfl, h.2.symm ▸ rfl⟩

/-- `getAllLines` is idempotent: calling it again on the state it produced
serves the same cache and changes nothing. -/
theorem getAllLines_idem (f : FilteringReader) :
    getAllLines MatchString (getAllLines MatchString f).2 =
      ((getAllLines MatchString f).1, (getAllLines MatchString f).2) := by
  obtain ⟨_, _, hcache, hcount, hpat⟩ := getAllLines_state MatchString f
  exact getAllLines_serve MatchString _ _ hcache hcount hpat.symm

/-- The rebuild loop keeps exactly the lines not filtered out. -/
theorem buildCacheLines_length (p : Option String) (ls : List NumberedLine) :
    ∀ ri, (buildCacheLines MatchString p ls ri).length =
      ls.countP (fun nl => !lineFilteredOut MatchString p nl) := by
  induction ls with
  | nil => intro ri; simp [buildCacheLines]
  | cons nl rest ih =>
    intro ri
    by_cases h : lineFilteredOut MatchString p nl
    · simp [buildCacheLines, h, ih, List.countP_cons]
    · simp [buildCacheLines, h, ih, List.countP_cons]

/-- With an active pattern, a rebuild keeps exactly the matching lines. -/
theorem freshCache_length (f : FilteringReader) (p : String)
    (hp : f.FilterPattern = some p) (hl : p.length ≠ 0)
    (hLen : f.BackingReader.getLineCount ≤ maxInt) :
    (freshCache MatchString f).length =
      matchingLineCount MatchString p f.BackingReader.lines := by
  have h1 : f.BackingReader.allNumbered.length ≤ maxInt.toNat := by
    simp only [BackingSource.allNumbered, BackingSource.getLineCount, List.length_map,
      List.enum_length] at hLen ⊢
    omega
  have hall : (f.BackingReader.getLines 0 maxInt).Lines = f.BackingReader.allNumbered := by
    simp [BackingSource.getLines, List.take_of_length_le h1]
  rw [freshCache, hall, hp, buildCacheLines_length, BackingSource.allNumbered,
    List.countP_map, matchingLineCount]
  congr 1
  funext q
  simp [lineFilteredOut, patStr, Nat.pos_of_ne_zero hl, Function.comp]

/-- With an active pattern, `GetLineCount` counts the (possibly rebuilt)
cache. -/
theorem GetLineCount_filtering (f : FilteringReader) (p : String)
    (hp : f.FilterPattern = some p) (hl : p.length ≠ 0) :
    GetLineCount MatchString f =
      (((getAllLines MatchString f).1.length : Int), (getAllLines MatchString f).2) := by
  simp [GetLineCount, shouldPassThrough_active f p hp hl]

/-- With an active pattern and a consistent state, the lines served by
`getAllLines` are exactly a rebuild's result. -/
theorem getAllLines_fst_eq_freshCache (f : FilteringReader)
    (hInv : CacheInv MatchString f) :
    (getAllLines MatchString f).1 = freshCache MatchString f := by
  rcases hc : f.filteredLinesCache with _ | c
  · rw [getAllLines_rebuild MatchString f (Or.inl hc)]
  · by_cases h : f.unfilteredLineCountWhenCaching ≠ f.BackingReader.getLineCount ∨
        patStr f.FilterPattern ≠ patStr f.filterPatternWhenCaching
    · rw [getAllLines_rebuild MatchString f (Or.inr h)]
    · push_neg at h
      rw [getAllLines_serve MatchString f c hc h.1 h.2]
      exact hInv c hc h.1 h.2.symm

theorem sameExternals_refl (f : FilteringReader) : SameExternals f f := ⟨rfl, rfl⟩

theorem sameExternals_trans {f g h : FilteringReader} :
    SameExternals f g → SameExternals g h → SameExternals f h :=
  fun a b => ⟨b.1.trans a.1, b.2.trans a.2⟩

theorem shouldPassThrough_sameExternals (f : FilteringReader) :
    SameExternals f (shouldPassThrough f).2 := by
  rcases hp : f.FilterPattern with _ | p
  · simp [shouldPassThrough, hp, SameExternals]
  · by_cases h : p.length = 0 <;> simp [shouldPassThrough, hp, h, SameExternals]

theorem getAllLines_sameExternals (f : FilteringReader) :
    SameExternals f (getAllLines MatchString f).2 :=
  ⟨(getAllLines_state MatchString f).1, (getAllLines_state MatchString f).2.1⟩

theorem GetLineCount_sameExternals (f : FilteringReader) :
    SameExternals f (GetLineCount MatchString f).2 := by
  by_cases h : (shouldPassThrough f).1 <;> simp only [GetLineCount, h, if_true, if_false,
    Bool.false_eq_true, if_neg, ite_false, ite_true]
  · exact shouldPassThrough_sameExternals f
  · exact sameExternals_trans (shouldPassThrough_sameExternals f)
      (getAllLines_sameExternals MatchString _)

theorem GetLine_sameExternals (f : FilteringReader) (i : Int) :
    SameExternals f (GetLine MatchString f i).2 := by
  by_cases h : (shouldPassThrough f).1
  · simp only [GetLine, h, ite_true]
    exact shouldPassThrough_sameExternals f
  · have heq : (GetLine MatchString f i).2 =
        (getAllLines MatchString (shouldPassThrough f).2).2 := by
      by_cases h2 : i < 0 ∨
          (((getAllLines MatchString (shouldPassThrough f).2).1.length : Int) ≤ i) <;>
        simp [GetLine, h, h2]
    rw [heq]
    exact sameExternals_trans (shouldPassThrough_sameExternals f)
      (getAllLines_sameExternals MatchString _)

theorem createStatus_sameExternals (f : FilteringReader) (last : Option Int) :
    SameExternals f (createStatus MatchString f last).2 := by
  by_cases h : f.BackingReader.getLineCount = 0
  · simp [createStatus, h, sameExternals_refl]
  · rcases last with _ | l
    · simp [createStatus, h, sameExternals_refl]
    · simp only [createStatus, h, if_neg, ite_false]
      exact GetLineCount_sameExternals MatchString f

/-- The body of `GetLines` preserves the backing source and the pattern cell
whenever its self-call does. -/
theorem GetLinesBody_sameExternals
    (recur : FilteringReader → Int → Int → Option (InputLines × FilteringReader))
    (hrec : ∀ f a n r g, recur f a n = some (r, g) → SameExternals f g)
    (f : FilteringReader) (a n : Int) (r : InputLines) (g : FilteringReader)
    (h : GetLinesBody MatchString recur f a n = some (r, g)) : SameExternals f g := by
  by_cases hpass : (shouldPassThrough f).1
  · simp only [GetLinesBody, hpass, ite_true] at h
    obtain ⟨h1, h2⟩ := Prod.mk.injEq .. ▸ Option.some.injEq .. ▸ h
    exact h2 ▸ shouldPassThrough_sameExternals f
  · have hs := shouldPassThrough_sameExternals f
    have hall := sameExternals_trans hs
      (getAllLines_sameExternals MatchString (shouldPassThrough f).2)
    by_cases hz : (getAllLines MatchString (shouldPassThrough f).2).1.length = 0 ∨ n = 0
    · simp only [GetLinesBody, hpass, hz, ite_true, ite_false, Bool.false_eq_true, if_neg,
        if_pos, Option.some.injEq, Prod.mk.injEq] at h
      have h2 := h.2
      exact h2 ▸ sameExternals_trans hall
        (createStatus_sameExternals MatchString _ none)
    · by_cases hcl : indexFromLengthVal
          (((getAllLines MatchString (shouldPassThrough f).2).1.length : Int)) <
          nonWrappingAdd a (n - 1)
      · simp only [GetLinesBody, hpass, hz, hcl, ite_true, ite_false, Bool.false_eq_true,
          if_neg, if_pos] at h
        exact sameExternals_trans hall (hrec _ _ _ _ _ h)
      · rcases hg : goSlice (getAllLines MatchString (shouldPassThrough f).2).1 a (a + n)
            with _ | sliced
        · simp only [GetLinesBody, hpass, hz, hcl, hg, ite_true, ite_false,
            Bool.false_eq_true, if_neg, if_pos] at h
          exact Option.noConfusion h
        · simp only [GetLinesBody, hpass, hz, hcl, hg, ite_true, ite_false,
            Bool.false_eq_true, if_neg, if_pos, Option.some.injEq, Prod.mk.injEq] at h
          have h2 := h.2
          exact h2 ▸ sameExternals_trans hall
            (createStatus_sameExternals MatchString _ _)

theorem GetLinesFuel_sameExternals :
    ∀ (k : Nat) (f : FilteringReader) (a n : Int) (r : InputLines) (g : FilteringReader),
      GetLinesFuel MatchString k f a n = some (r, g) → SameExternals f g := by
  intro k
  induction k with
  | zero => intro f a n r g h; exact absurd h (by simp [GetLinesFuel])
  | succ k ih =>
    intro f a n r g h
    rw [GetLinesFuel] at h
    exact GetLinesBody_sameExternals MatchString (GetLinesFuel MatchString k) ih f a n r g h

theorem maxInt_eq : maxInt = 9223372036854775807 := by norm_num [maxInt]

/-- A pass-through answer of false means the pattern is present with a
non-empty string form, and the state was left untouched. -/
theorem shouldPassThrough_false_inv (f : FilteringReader)
    (h : (shouldPassThrough f).1 = false) :
    ∃ p, f.FilterPattern = some p ∧ p.length ≠ 0 ∧ (shouldPassThrough f).2 = f := by
  rcases hp : f.FilterPattern with _ | p
  · rw [shouldPassThrough_pass f (Or.inl hp)] at h
    exact absurd h (by simp)
  · by_cases hl : p.length = 0
    · have : p = "" := by
        cases p with
        | mk data =>
          cases data with
          | nil => rfl
          | cons c cs => simp [String.length] at hl
      rw [shouldPassThrough_pass f (Or.inr (this ▸ hp))] at h
      exact absurd h (by simp)
    · refine ⟨p, rfl, hl, ?_⟩
      rw [shouldPassThrough_active f p hp hl]

/-- The corrected window end never lands past the last valid index. -/
theorem nonWrappingAdd_self_le (x M : Int) (hM : 1 ≤ M) :
    nonWrappingAdd x (M - x - 1) ≤ M - 1 := by
  simp only [nonWrappingAdd, maxInt_eq]
  split_ifs <;> omega

/-- With the start within range and the length within the machine bound, the
corrected window end lands exactly on the last valid index. -/
theorem nonWrappingAdd_self_eq (x M : Int) (hx0 : 0 ≤ x) (hxM : x ≤ M - 1)
    (hMmax : M ≤ maxInt) :
    nonWrappingAdd x (M - x - 1) = M - 1 := by
  simp only [nonWrappingAdd, maxInt_eq] at *
  split_ifs <;> omega

/-- A requested window whose end passes the last valid index is detected by
the clamp test. -/
theorem nonWrappingAdd_past (a n M : Int) (hMpos : 1 ≤ M) (hMmax : M ≤ maxInt)
    (hn : 0 < n) (hpast : M - 1 < a + n - 1) :
    M - 1 < nonWrappingAdd a (n - 1) := by
  simp only [nonWrappingAdd, maxInt_eq] at *
  split_ifs <;> omega

/-- The clamped-and-shifted window start is the naive shifted start clamped to
zero. -/
theorem nonWrappingAdd_shift (M n : Int) (hM : 1 ≤ M) (hn : 0 < n) :
    nonWrappingAdd (M - 1) (1 - n) = max 0 (M - n) := by
  simp only [nonWrappingAdd, maxInt_eq] at *
  split_ifs <;> omega

/-- The body of `GetLines` in the filtering, non-empty, non-clamping case:
slice directly (or fault when the Go slice expression would panic). -/
theorem GetLinesBody_direct
    (recur : FilteringReader → Int → Int → Option (InputLines × FilteringReader))
    (f : FilteringReader) (a n : Int) (p : String)
    (hp : f.FilterPattern = some p) (hl : p.length ≠ 0)
    (hM : (getAllLines MatchString f).1.length ≠ 0) (hn : n ≠ 0)
    (hnc : ¬ (indexFromLengthVal ((getAllLines MatchString f).1.length : Int) <
        nonWrappingAdd a (n - 1))) :
    GetLinesBody MatchString recur f a n =
      match goSlice (getAllLines MatchString f).1 a (a + n) with
      | none => none
      | some sliced =>
        some ({ Lines := sliced
                StatusText := (createStatus MatchString (getAllLines MatchString f).2
                  (some (nonWrappingAdd a (n - 1)))).1 },
              (createStatus MatchString (getAllLines MatchString f).2
                (some (nonWrappingAdd a (n - 1)))).2) := by
  have hs := shouldPassThrough_active f p hp hl
  have hz : ¬ ((getAllLines MatchString f).1.length = 0 ∨ n = 0) := by
    rintro (h | h)
    · exact hM h
    · exact hn h
  simp only [GetLinesBody, hs, Bool.false_eq_true, if_false, hz, ite_false, hnc]

/-- The body of `GetLines` in the filtering, clamping case: re-invoke with the
corrected window. -/
theorem GetLinesBody_clamp
    (recur : FilteringReader → Int → Int → Option (InputLines × FilteringReader))
    (f : FilteringReader) (a n : Int) (p : String)
    (hp : f.FilterPattern = some p) (hl : p.length ≠ 0)
    (hM : (getAllLines MatchString f).1.length ≠ 0) (hn : n ≠ 0)
    (hc : indexFromLengthVal ((getAllLines MatchString f).1.length : Int) <
        nonWrappingAdd a (n - 1)) :
    GetLinesBody MatchString recur f a n =
      recur (getAllLines MatchString f).2
        (nonWrappingAdd (indexFromLengthVal ((getAllLines MatchString f).1.length : Int))
          (1 - n))
        (countLinesTo
          (nonWrappingAdd (indexFromLengthVal ((getAllLines MatchString f).1.length : Int))
            (1 - n))
          (indexFromLengthVal ((getAllLines MatchString f).1.length : Int))) := by
  have hs := shouldPassThrough_active f p hp hl
  have hz : ¬ ((getAllLines MatchString f).1.length = 0 ∨ n = 0) := by
    rintro (h | h)
    · exact hM h
    · exact hn h
  simp only [GetLinesBody, hs, Bool.false_eq_true, if_false, hz, ite_false, hc, ite_true]

/-- The body of `GetLines` in the filtering case with an empty cache or a
zero-length request: an empty batch with the zero-matches status text. -/
theorem GetLinesBody_empty
    (recur : FilteringReader → Int → Int → Option (InputLines × FilteringReader))
    (f : FilteringReader) (a n : Int) (p : String)
    (hp : f.FilterPattern = some p) (hl : p.length ≠ 0)
    (hz : (getAllLines MatchString f).1.length = 0 ∨ n = 0) :
    GetLinesBody MatchString recur f a n =
      some ({ Lines := []
              StatusText := (createStatus MatchString (getAllLines MatchString f).2 none).1 },
            (createStatus MatchString (getAllLines MatchString f).2 none).2) := by
  have hs := shouldPassThrough_active f p hp hl
  simp only [GetLinesBody, hs, Bool.false_eq_true, if_false, hz, ite_true]

/-- When one of the non-recursive branches is taken, the body does not depend
on the self-call. -/
theorem GetLinesBody_congr
    (recur recur2 : FilteringReader → Int → Int → Option (InputLines × FilteringReader))
    (f : FilteringReader) (a n : Int)
    (h : (shouldPassThrough f).1 = true ∨
        (getAllLines MatchString (shouldPassThrough f).2).1.length = 0 ∨ n = 0 ∨
        ¬ (indexFromLengthVal
            ((getAllLines MatchString (shouldPassThrough f).2).1.length : Int) <
          nonWrappingAdd a (n - 1))) :
    GetLinesBody MatchString recur f a n = GetLinesBody MatchString recur2 f a n := by
  by_cases hpass : (shouldPassThrough f).1
  · simp only [GetLinesBody, hpass, ite_true]
  · by_cases hz : (getAllLines MatchString (shouldPassThrough f).2).1.length = 0 ∨ n = 0
    · simp only [GetLinesBody, hpass, Bool.false_eq_true, ite_false, hz, ite_true]
    · by_cases hcl : indexFromLengthVal
          ((getAllLines MatchString (shouldPassThrough f).2).1.length : Int) <
          nonWrappingAdd a (n - 1)
      · rcases h with h | h | h | h
        · exact absurd h hpass
        · exact absurd (Or.inl h) hz
        · exact absurd (Or.inr h) hz
        · exact absurd hcl h
      · simp only [GetLinesBody, hpass, Bool.false_eq_true, ite_false, hz, hcl, ite_true]

/-- Extra fuel beyond one unit is irrelevant when a non-recursive branch is
taken. -/
theorem GetLinesFuel_ge_one_eq (k : Nat) (f : FilteringReader) (a n : Int)
    (h : (shouldPassThrough f).1 = true ∨
        (getAllLines MatchString (shouldPassThrough f).2).1.length = 0 ∨ n = 0 ∨
        ¬ (indexFromLengthVal
            ((getAllLines MatchString (shouldPassThrough f).2).1.length : Int) <
          nonWrappingAdd a (n - 1))) :
    GetLinesFuel MatchString (k + 1) f a n = GetLinesFuel MatchString 1 f a n := by
  show GetLinesBody MatchString (GetLinesFuel MatchString k) f a n =
    GetLinesBody MatchString (GetLinesFuel MatchString 0) f a n
  exact GetLinesBody_congr MatchString _ _ f a n h

/-- At the corrected window produced by the clamp, the re-invocation takes a
non-recursive branch. -/
theorem clamp_recursion_grounded (f : FilteringReader) (n : Int) (p : String)
    (hp : f.FilterPattern = some p) (hl : p.length ≠ 0)
    (hM : (getAllLines MatchString f).1.length ≠ 0) :
    (shouldPassThrough (getAllLines MatchString f).2).1 = true ∨
      (getAllLines MatchString
        (shouldPassThrough (getAllLines MatchString f).2).2).1.length = 0 ∨
      countLinesTo
        (nonWrappingAdd (indexFromLengthVal ((getAllLines MatchString f).1.length : Int))
          (1 - n))
        (indexFromLengthVal ((getAllLines MatchString f).1.length : Int)) = 0 ∨
      ¬ (indexFromLengthVal
          ((getAllLines MatchString
            (shouldPassThrough (getAllLines MatchString f).2).2).1.length : Int) <
        nonWrappingAdd
          (nonWrappingAdd (indexFromLengthVal ((getAllLines MatchString f).1.length : Int))
            (1 - n))
          (countLinesTo
            (nonWrappingAdd
              (indexFromLengthVal ((getAllLines MatchString f).1.length : Int)) (1 - n))
            (indexFromLengthVal ((getAllLines MatchString f).1.length : Int)) - 1)) := by
  have hp2 : (getAllLines MatchString f).2.FilterPattern = some p :=
    (getAllLines_state MatchString f).2.1.trans hp
  have hs2 := shouldPassThrough_active (getAllLines MatchString f).2 p hp2 hl
  rw [hs2]
  have hidem := getAllLines_idem MatchString f
  rw [hidem]
  have hM1 : (1 : Int) ≤ ((getAllLines MatchString f).1.length : Int) := by
    have := Nat.pos_of_ne_zero hM
    exact_mod_cast this
  refine Or.inr (Or.inr (Or.inr ?_))
  simp only [indexFromLengthVal, countLinesTo, not_lt]
  have harith : ((getAllLines MatchString f).1.length : Int) - 1 -
      nonWrappingAdd (((getAllLines MatchString f).1.length : Int) - 1) (1 - n) + 1 - 1 =
      ((getAllLines MatchString f).1.length : Int) -
        nonWrappingAdd (((getAllLines MatchString f).1.length : Int) - 1) (1 - n) - 1 := by
    ring
  rw [harith]
  exact nonWrappingAdd_self_le _ _ hM1

/-- Two units of fuel already compute the fixpoint of `GetLines`'s
self-recursion: the corrected re-invocation never recurses again. -/
theorem GetLinesFuel_two_enough (k : Nat) (f : FilteringReader) (a n : Int) :
    GetLinesFuel MatchString (k + 2) f a n = GetLinesFuel MatchString 2 f a n := by
  show GetLinesBody MatchString (GetLinesFuel MatchString (k + 1)) f a n =
    GetLinesBody MatchString (GetLinesFuel MatchString 1) f a n
  by_cases hpass : (shouldPassThrough f).1
  · simp only [GetLinesBody, hpass, ite_true]
  · rw [Bool.not_eq_true] at hpass
    obtain ⟨p, hp, hl, hstate⟩ := shouldPassThrough_false_inv f hpass
    have hs := shouldPassThrough_active f p hp hl
    by_cases hz : (getAllLines MatchString f).1.length = 0 ∨ n = 0
    · rw [GetLinesBody_empty MatchString _ f a n p hp hl hz,
        GetLinesBody_empty MatchString _ f a n p hp hl hz]
    · push_neg at hz
      by_cases hcl : indexFromLengthVal ((getAllLines MatchString f).1.length : Int) <
          nonWrappingAdd a (n - 1)
      · rw [GetLinesBody_clamp MatchString _ f a n p hp hl hz.1 hz.2 hcl,
          GetLinesBody_clamp MatchString _ f a n p hp hl hz.1 hz.2 hcl]
        exact GetLinesFuel_ge_one_eq MatchString k _ _ _
          (clamp_recursion_grounded MatchString f n p hp hl hz.1)
      · rw [GetLinesBody_direct MatchString _ f a n p hp hl hz.1 hz.2 hcl,
          GetLinesBody_direct MatchString _ f a n p hp hl hz.1 hz.2 hcl]

/-- Full evaluation of a filtered windowed read whose requested end passes the
last filtered index: the window is clamped to the end, the start is shifted
back and clamped to zero, and the resulting slice runs from
`max 0 (count - wanted)` to the end of the cache. -/
theorem getLines_past_end (f : FilteringReader) (a n : Int) (p : String)
    (hp : f.FilterPattern = some p) (hl : p.length ≠ 0)
    (hM : (getAllLines MatchString f).1.length ≠ 0)
    (hMmax : ((getAllLines MatchString f).1.length : Int) ≤ maxInt)
    (hn : 0 < n)
    (hpast : ((getAllLines MatchString f).1.length : Int) - 1 < a + n - 1) :
    GetLines MatchString f a n =
      some ({ Lines := (getAllLines MatchString f).1.drop
                (max 0 (((getAllLines MatchString f).1.length : Int) - n)).toNat
              StatusText := (createStatus MatchString (getAllLines MatchString f).2
                (some (((getAllLines MatchString f).1.length : Int) - 1))).1 },
            (createStatus MatchString (getAllLines MatchString f).2
              (some (((getAllLines MatchString f).1.length : Int) - 1))).2) := by
  have hidem := getAllLines_idem MatchString f
  have hp2 : (getAllLines MatchString f).2.FilterPattern = some p :=
    (getAllLines_state MatchString f).2.1.trans hp
  have hM1 : (1 : Int) ≤ ((getAllLines MatchString f).1.length : Int) := by
    have := Nat.pos_of_ne_zero hM
    exact_mod_cast this
  have hcl : indexFromLengthVal ((getAllLines MatchString f).1.length : Int) <
      nonWrappingAdd a (n - 1) := by
    simp only [indexFromLengthVal]
    exact nonWrappingAdd_past a n _ hM1 hMmax hn hpast
  rw [GetLines]
  show GetLinesBody MatchString (GetLinesFuel MatchString 1) f a n = _
  rw [GetLinesBody_clamp MatchString _ f a n p hp hl hM (by omega) hcl]
  have hA : nonWrappingAdd (indexFromLengthVal ((getAllLines MatchString f).1.length : Int))
      (1 - n) = max 0 (((getAllLines MatchString f).1.length : Int) - n) := by
    simp only [indexFromLengthVal]
    exact nonWrappingAdd_shift _ n hM1 hn
  rw [hA]
  have hN : countLinesTo (max 0 (((getAllLines MatchString f).1.length : Int) - n))
      (indexFromLengthVal ((getAllLines MatchString f).1.length : Int)) =
      ((getAllLines MatchString f).1.length : Int) -
        max 0 (((getAllLines MatchString f).1.length : Int) - n) := by
    simp only [countLinesTo, indexFromLengthVal]
    ring
  rw [hN]
  show GetLinesBody MatchString (GetLinesFuel MatchString 0) (getAllLines MatchString f).2
    (max 0 (((getAllLines MatchString f).1.length : Int) - n))
    (((getAllLines MatchString f).1.length : Int) -
      max 0 (((getAllLines MatchString f).1.length : Int) - n)) = _
  have hM2 : (getAllLines MatchString (getAllLines MatchString f).2).1.length ≠ 0 := by
    rw [hidem]
    exact hM
  have hn2 : ((getAllLines MatchString f).1.length : Int) -
      max 0 (((getAllLines MatchString f).1.length : Int) - n) ≠ 0 := by
    omega
  have hend : nonWrappingAdd (max 0 (((getAllLines MatchString f).1.length : Int) - n))
      (((getAllLines MatchString f).1.length : Int) -
        max 0 (((getAllLines MatchString f).1.length : Int) - n) - 1) =
      ((getAllLines MatchString f).1.length : Int) - 1 :=
    nonWrappingAdd_self_eq _ _ (by omega) (by omega) hMmax
  have hnc : ¬ (indexFromLengthVal
      ((getAllLines MatchString (getAllLines MatchString f).2).1.length : Int) <
      nonWrappingAdd (max 0 (((getAllLines MatchString f).1.length : Int) - n))
        (((getAllLines MatchString f).1.length : Int) -
          max 0 (((getAllLines MatchString f).1.length : Int) - n) - 1)) := by
    rw [hidem]
    simp only [indexFromLengthVal]
    rw [hend]
    omega
  rw [GetLinesBody_direct MatchString _ _ _ _ p hp2 hl hM2 hn2 hnc]
  simp only [hidem]
  rw [hend]
  have hgs : goSlice (getAllLines MatchString f).1
      (max 0 (((getAllLines MatchString f).1.length : Int) - n))
      (max 0 (((getAllLines MatchString f).1.length : Int) - n) +
        (((getAllLines MatchString f).1.length : Int) -
          max 0 (((getAllLines MatchString f).1.length : Int) - n))) =
      some ((getAllLines MatchString f).1.drop
        (max 0 (((getAllLines MatchString f).1.length : Int) - n)).toNat) := by
    unfold goSlice
    rw [if_pos ⟨by omega, by omega, by omega⟩]
    congr 1
    have harith : max 0 (((getAllLines MatchString f).1.length : Int) - n) +
        (((getAllLines MatchString f).1.length : Int) -
          max 0 (((getAllLines MatchString f).1.length : Int) - n)) -
        max 0 (((getAllLines MatchString f).1.length : Int) - n) =
        ((getAllLines MatchString f).1.length : Int) -
          max 0 (((getAllLines MatchString f).1.length : Int) - n) := by
      ring
    rw [harith]
    refine List.take_of_length_le ?_
    rw [List.length_drop]
    omega
  rw [hgs]

/-- The 1-based rendering of the from-length index of `x` displays `x`. -/
theorem formatIndex_fromLength (x : Int) :
    formatIndex (indexFromLengthVal x) = toString x := by
  simp [formatIndex, indexFromLengthVal]

/-- Euclidean division by a positive integer is the rational floor. -/
theorem ediv_eq_floor (x m : Int) (hm : 0 < m) :
    Int.ediv x m = ⌊(x : ℚ) / (m : ℚ)⌋ := by
  have h1 : ((m.toNat : ℕ) : ℚ) = (m : ℚ) := by
    exact_mod_cast congrArg (fun z : Int => (z : ℚ)) (Int.toNat_of_nonneg hm.le)
  rw [← h1, Rat.floor_intCast_div_natCast x m.toNat]
  have h2 : ((m.toNat : ℕ) : ℤ) = m := Int.toNat_of_nonneg hm.le
  rw [h2]
  rfl

end FilteringLemmas

/-! ### The claims -/

section Claims

variable (MatchString : String → String → Bool)

/-- Claim C2: for every backing contents and every non-empty pattern,
`GetLineCount` on the filtering reader equals the number of backing lines
whose plain text, resolved together with that line's own index, matches the
pattern. -/
theorem claim_C2_filtered_count (f : FilteringReader) (p : String)
    (hp : f.FilterPattern = some p) (hl : p.length ≠ 0)
    (hInv : CacheInv MatchString f)
    (hLen : f.BackingReader.getLineCount ≤ maxInt) :
    (GetLineCount MatchString f).1 =
      (matchingLineCount MatchString p f.BackingReader.lines : Int) := by
  have h1 := getAllLines_fst_eq_freshCache MatchString f hInv
  have h2 := freshCache_length MatchString f p hp hl hLen
  simp [GetLineCount_filtering MatchString f p hp hl, h1, h2]

theorem claim_C2_filtered_count_witness :
    sampleReader.FilterPattern = some "cat" ∧
    (GetLineCount sampleMatch sampleReader).1 =
      (matchingLineCount sampleMatch "cat" sampleReader.BackingReader.lines : Int) :=
  ⟨rfl, claim_C2_filtered_count sampleMatch sampleReader "cat" rfl (by decide)
    (fun c hc _ _ => by simp [sampleReader] at hc) (by decide)⟩

/-- Claim C3: a read is served from the existing cache with no rebuild (state
unchanged) exactly when the cache is present, the backing count equals the
recorded baseline and the pattern's rendered string equals the recorded
baseline; replacing the pattern cell by one with a different string form
forces a rebuild whose baseline records the new pattern, and growing the
backing source forces a rebuild with no explicit reset call. -/
theorem claim_C3_cache_staleness (f : FilteringReader) :
    ((∃ c, getAllLines MatchString f = (c, f)) ↔
      (f.filteredLinesCache ≠ none ∧
        f.unfilteredLineCountWhenCaching = f.BackingReader.getLineCount ∧
        patStr f.FilterPattern = patStr f.filterPatternWhenCaching)) ∧
    (∀ p2 : Option String, patStr p2 ≠ patStr f.filterPatternWhenCaching →
      getAllLines MatchString { f with FilterPattern := p2 } =
        (freshCache MatchString { f with FilterPattern := p2 },
          rebuildCache MatchString { f with FilterPattern := p2 }) ∧
      (getAllLines MatchString { f with FilterPattern := p2 }).2.filterPatternWhenCaching
        = p2) ∧
    (f.unfilteredLineCountWhenCaching = f.BackingReader.getLineCount →
      ∀ extra : List Line, extra ≠ [] →
      getAllLines MatchString
          { f with BackingReader :=
              { f.BackingReader with lines := f.BackingReader.lines ++ extra } } =
        (freshCache MatchString
            { f with BackingReader :=
                { f.BackingReader with lines := f.BackingReader.lines ++ extra } },
          rebuildCache MatchString
            { f with BackingReader :=
                { f.BackingReader with lines := f.BackingReader.lines ++ extra } })) := by
  refine ⟨⟨?_, ?_⟩, ?_, ?_⟩
  · rintro ⟨c, hcf⟩
    rcases hc : f.filteredLinesCache with _ | c0
    · exfalso
      rw [getAllLines_rebuild MatchString f (Or.inl hc)] at hcf
      have h2 := congrArg (fun q => q.2.filteredLinesCache) hcf
      simp [rebuildCache_eq, hc] at h2
    · by_cases h : f.unfilteredLineCountWhenCaching ≠ f.BackingReader.getLineCount ∨
          patStr f.FilterPattern ≠ patStr f.filterPatternWhenCaching
      · exfalso
        rw [getAllLines_rebuild MatchString f (Or.inr h)] at hcf
        rcases h with h | h
        · have h2 := congrArg (fun q => q.2.unfilteredLineCountWhenCaching) hcf
          simp [rebuildCache_eq] at h2
          exact h h2.symm
        · have h2 := congrArg (fun q => q.2.filterPatternWhenCaching) hcf
          simp [rebuildCache_eq] at h2
          exact h (by rw [h2])
      · push_neg at h
        exact ⟨by simp [hc], h.1, h.2⟩
  · rintro ⟨hne, hcount, hpat⟩
    rcases hc : f.filteredLinesCache with _ | c
    · exact absurd hc hne
    · exact ⟨c, getAllLines_serve MatchString f c hc hcount hpat⟩
  · intro p2 hp2
    have htrig : patStr ({ f with FilterPattern := p2 } : FilteringReader).FilterPattern ≠
        patStr ({ f with FilterPattern := p2 } : FilteringReader).filterPatternWhenCaching := hp2
    refine ⟨getAllLines_rebuild MatchString _ (Or.inr (Or.inr htrig)), ?_⟩
    rw [getAllLines_rebuild MatchString _ (Or.inr (Or.inr htrig))]
    simp [rebuildCache_eq]
  · intro hcount extra hextra
    have hpos : 0 < extra.length := List.length_pos.mpr hextra
    have htrig : ({ f with BackingReader :=
          { f.BackingReader with lines := f.BackingReader.lines ++ extra } } :
            FilteringReader).unfilteredLineCountWhenCaching ≠
        ({ f with BackingReader :=
          { f.BackingReader with lines := f.BackingReader.lines ++ extra } } :
            FilteringReader).BackingReader.getLineCount := by
      simp only [BackingSource.getLineCount, List.length_append] at hcount ⊢
      push_cast
      omega
    exact getAllLines_rebuild MatchString _ (Or.inr (Or.inl htrig))

theorem claim_C3_cache_staleness_witness :
    (∃ c, getAllLines sampleMatch sampleReader = (c, sampleReader)) ↔
      (sampleReader.filteredLinesCache ≠ none ∧
        sampleReader.unfilteredLineCountWhenCaching =
          sampleReader.BackingReader.getLineCount ∧
        patStr sampleReader.FilterPattern = patStr sampleReader.filterPatternWhenCaching) :=
  (claim_C3_cache_staleness sampleMatch sampleReader).1

/-- Claim C7: the unsupported total-visibility query always aborts — modelled
as `none` — and never returns a boolean answer, in every reader state. -/
theorem claim_C7_unsupported_query_halts (f : FilteringReader) :
    ShouldShowLineCount f = none ∧ ∀ b : Bool, ShouldShowLineCount f ≠ some b :=
  ⟨rfl, fun _ h => Option.noConfusion h⟩

theorem claim_C7_unsupported_query_halts_witness :
    ShouldShowLineCount sampleReader = none ∧
      ∀ b : Bool, ShouldShowLineCount sampleReader ≠ some b :=
  claim_C7_unsupported_query_halts sampleReader

/-- Claim C8: with an active pattern, `GetLine` returns absence for every
out-of-range index (negative or at least the filtered count) and the cached
entry at the requested position for every in-range index. -/
theorem claim_C8_getline_bounds (f : FilteringReader) (p : String) (i : Int)
    (hp : f.FilterPattern = some p) (hl : p.length ≠ 0) :
    ((i < 0 ∨ ((getAllLines MatchString f).1.length : Int) ≤ i) →
      (GetLine MatchString f i).1 = none) ∧
    (0 ≤ i → ∀ h : i.toNat < (getAllLines MatchString f).1.length,
      (GetLine MatchString f i).1 =
        some ((getAllLines MatchString f).1.get ⟨i.toNat, h⟩)) := by
  have hs := shouldPassThrough_active f p hp hl
  constructor
  · intro hoob
    simp [GetLine, hs, if_pos hoob]
  · intro hge h
    have hlt : ¬ (i < 0 ∨ ((getAllLines MatchString f).1.length : Int) ≤ i) := by omega
    simp [GetLine, hs, if_neg hlt, List.get?_eq_get h]

theorem claim_C8_getline_bounds_witness :
    ((-1 : Int) < 0 ∨ ((getAllLines sampleMatch sampleReader).1.length : Int) ≤ -1) ∧
    (GetLine sampleMatch sampleReader (-1)).1 = none :=
  ⟨Or.inl (by decide),
    (claim_C8_getline_bounds sampleMatch sampleReader "cat" (-1) rfl (by decide)).1
      (Or.inl (by decide))⟩

/-- Claim C4: with the pattern absent or empty, count, single-line and
windowed reads on the filtering reader return exactly what the backing source
returns for the same call, for all arguments. -/
theorem claim_C4_pass_through (f : FilteringReader)
    (hp : f.FilterPattern = none ∨ f.FilterPattern = some "") :
    (GetLineCount MatchString f).1 = f.BackingReader.getLineCount ∧
    (∀ i, (GetLine MatchString f i).1 = f.BackingReader.getLine i) ∧
    (∀ a n, ∃ g, GetLines MatchString f a n = some (f.BackingReader.getLines a n, g)) := by
  have hs := shouldPassThrough_pass f hp
  refine ⟨by simp [GetLineCount, hs], fun i => by simp [GetLine, hs], fun a n => ?_⟩
  refine ⟨{ f with filteredLinesCache := none }, ?_⟩
  rw [GetLines, show (2 : Nat) = 1 + 1 from rfl, GetLinesFuel]
  simp [GetLinesBody, hs]

theorem claim_C4_pass_through_witness :
    (samplePassReader.FilterPattern = none ∨ samplePassReader.FilterPattern = some "") ∧
    (GetLineCount sampleMatch samplePassReader).1 =
      samplePassReader.BackingReader.getLineCount :=
  ⟨Or.inl rfl, (claim_C4_pass_through sampleMatch samplePassReader (Or.inl rfl)).1⟩

/-- Claim C1: a filtered windowed read with a positive wanted count whose
inclusive end index passes the last filtered index returns exactly the cached
lines from index `max 0 (count - wanted)` through the end of the cache —
never fewer lines than are available and never starting below zero (when the
wanted count exceeds the cache size, all lines starting at index 0). -/
theorem claim_C1_windowing_clamp (f : FilteringReader) (a n : Int) (p : String)
    (hp : f.FilterPattern = some p) (hl : p.length ≠ 0)
    (hM : (getAllLines MatchString f).1.length ≠ 0)
    (hMmax : ((getAllLines MatchString f).1.length : Int) ≤ maxInt)
    (hn : 0 < n)
    (hpast : ((getAllLines MatchString f).1.length : Int) - 1 < a + n - 1) :
    ∃ r g, GetLines MatchString f a n = some (r, g) ∧
      r.Lines = (getAllLines MatchString f).1.drop
        (max 0 (((getAllLines MatchString f).1.length : Int) - n)).toNat :=
  ⟨_, _, getLines_past_end MatchString f a n p hp hl hM hMmax hn hpast, rfl⟩

theorem claim_C1_windowing_clamp_witness :
    (0 : Int) < 5 ∧
    (((getAllLines sampleMatch sampleReader).1.length : Int) - 1 < 1 + 5 - 1) ∧
    ∃ r g, GetLines sampleMatch sampleReader 1 5 = some (r, g) ∧
      r.Lines = (getAllLines sampleMatch sampleReader).1.drop
        (max 0 (((getAllLines sampleMatch sampleReader).1.length : Int) - 5)).toNat :=
  ⟨by decide, by decide,
    claim_C1_windowing_clamp sampleMatch sampleReader 1 5 "cat" rfl (by decide)
      (by decide) (by decide) (by decide) (by decide)⟩

/-- Claim C6: `GetLines` has a defined, non-faulting fallback for every one
of: absent or empty pattern, empty cache or zero-length request (an empty
batch carrying the zero-matches status text), empty backing source, and
windows extending past the end of the filtered data. -/
theorem claim_C6_getlines_total (f : FilteringReader) (a n : Int) :
    ((f.FilterPattern = none ∨ f.FilterPattern = some "") →
      ∃ g, GetLines MatchString f a n = some (f.BackingReader.getLines a n, g)) ∧
    (∀ p, f.FilterPattern = some p → p.length ≠ 0 →
      ((getAllLines MatchString f).1.length = 0 ∨ n = 0) →
      GetLines MatchString f a n =
        some ({ Lines := []
                StatusText :=
                  (createStatus MatchString (getAllLines MatchString f).2 none).1 },
              (createStatus MatchString (getAllLines MatchString f).2 none).2)) ∧
    (∀ p, f.FilterPattern = some p → p.length ≠ 0 → CacheInv MatchString f →
      f.BackingReader.lines = [] →
      ∃ r g, GetLines MatchString f a n = some (r, g) ∧ r.Lines = []) ∧
    (∀ p, f.FilterPattern = some p → p.length ≠ 0 →
      (getAllLines MatchString f).1.length ≠ 0 →
      ((getAllLines MatchString f).1.length : Int) ≤ maxInt → 0 < n →
      ((getAllLines MatchString f).1.length : Int) - 1 < a + n - 1 →
      ∃ r g, GetLines MatchString f a n = some (r, g)) := by
  have hempty : ∀ p, f.FilterPattern = some p → p.length ≠ 0 →
      ((getAllLines MatchString f).1.length = 0 ∨ n = 0) →
      GetLines MatchString f a n =
        some ({ Lines := []
                StatusText :=
                  (createStatus MatchString (getAllLines MatchString f).2 none).1 },
              (createStatus MatchString (getAllLines MatchString f).2 none).2) := by
    intro p hp hl hz
    rw [GetLines]
    show GetLinesBody MatchString (GetLinesFuel MatchString 1) f a n = _
    exact GetLinesBody_empty MatchString _ f a n p hp hl hz
  refine ⟨?_, hempty, ?_, ?_⟩
  · intro hp
    have hs := shouldPassThrough_pass f hp
    refine ⟨{ f with filteredLinesCache := none }, ?_⟩
    rw [GetLines]
    show GetLinesBody MatchString (GetLinesFuel MatchString 1) f a n = _
    simp [GetLinesBody, hs]
  · intro p hp hl hInv hb
    have hfc : freshCache MatchString f = [] := by
      simp [freshCache, BackingSource.getLines, BackingSource.allNumbered, hb,
        buildCacheLines]
    have hcz : (getAllLines MatchString f).1.length = 0 := by
      rw [getAllLines_fst_eq_freshCache MatchString f hInv, hfc]
      rfl
    exact ⟨_, _, hempty p hp hl (Or.inl hcz), rfl⟩
  · intro p hp hl hM hMmax hn hpast
    exact ⟨_, _, getLines_past_end MatchString f a n p hp hl hM hMmax hn hpast⟩

theorem claim_C6_getlines_total_witness :
    GetLines sampleMatch sampleReader 0 0 =
      some ({ Lines := []
              StatusText :=
                (createStatus sampleMatch (getAllLines sampleMatch sampleReader).2 none).1 },
            (createStatus sampleMatch (getAllLines sampleMatch sampleReader).2 none).2) :=
  (claim_C6_getlines_total sampleMatch sampleReader 0 0).2.1 "cat" rfl (by decide)
    (Or.inr rfl)

/-- Claim C9: no reader operation mutates the backing source or replaces the
pattern cell's contents; only the reader's own cache and baseline fields (the
only other fields of the state) can change. -/
theorem claim_C9_frame (f : FilteringReader) :
    SameExternals f (GetLineCount MatchString f).2 ∧
    (∀ i, SameExternals f (GetLine MatchString f i).2) ∧
    (∀ last, SameExternals f (createStatus MatchString f last).2) ∧
    (∀ a n r g, GetLines MatchString f a n = some (r, g) → SameExternals f g) :=
  ⟨GetLineCount_sameExternals MatchString f,
    fun i => GetLine_sameExternals MatchString f i,
    fun last => createStatus_sameExternals MatchString f last,
    fun a n r g h => GetLinesFuel_sameExternals MatchString 2 f a n r g h⟩

theorem claim_C9_frame_witness :
    SameExternals sampleReader (GetLineCount sampleMatch sampleReader).2 :=
  (claim_C9_frame sampleMatch sampleReader).1

/-- Claim C5: the status text of a filtered read is exactly
`Filtered: No input lines` on an empty backing source;
`Filtered: 0<denominator> lines  100%` when zero lines are shown, where the
denominator is `/<total>` when the backing source wants its total shown and
empty otherwise; and otherwise
`Filtered: <matched><denominator> <line|lines>  <percent>%`, with the matched
count the current total filtered count, pluralization following the
denominator's count when shown and the matched count otherwise, and the
percentage the floor of `100 * (lastShownIndex + 1) / matchedCount`. -/
theorem claim_C5_status_text (f : FilteringReader) :
    (f.BackingReader.getLineCount = 0 →
      ∀ last, (createStatus MatchString f last).1 = "Filtered: No input lines") ∧
    (f.BackingReader.getLineCount ≠ 0 →
      (createStatus MatchString f none).1 =
        "Filtered: 0" ++ (if f.BackingReader.showLineCount
          then "/" ++ toString f.BackingReader.getLineCount else "") ++ " lines  100%") ∧
    (f.BackingReader.getLineCount ≠ 0 → ∀ lastIdx : Int,
      0 < (GetLineCount MatchString f).1 →
      (createStatus MatchString f (some lastIdx)).1 =
        "Filtered: " ++ toString (GetLineCount MatchString f).1 ++
          (if f.BackingReader.showLineCount
            then "/" ++ toString f.BackingReader.getLineCount else "") ++ " " ++
          (if (f.BackingReader.showLineCount = true ∧ f.BackingReader.getLineCount ≠ 1) ∨
              (f.BackingReader.showLineCount = false ∧ (GetLineCount MatchString f).1 ≠ 1)
            then "lines" else "line") ++ "  " ++
          toString ⌊(100 * ((lastIdx : ℚ) + 1)) / ((GetLineCount MatchString f).1 : ℚ)⌋ ++
          "%") := by
  refine ⟨fun h last => by simp [createStatus, h], fun h => ?_, fun h lastIdx hacc => ?_⟩
  · by_cases hshow : f.BackingReader.showLineCount <;>
      simp [createStatus, h, hshow, formatIndex_fromLength]
  · have hfloor : (Int.ediv (100 * (lastIdx + 1)) (GetLineCount MatchString f).1 : Int) =
        ⌊(100 * ((lastIdx : ℚ) + 1)) / ((GetLineCount MatchString f).1 : ℚ)⌋ := by
      rw [ediv_eq_floor _ _ hacc]
      norm_num
    have hslash : ("/").length = 1 := rfl
    have hiff : ((0 < (if f.BackingReader.showLineCount
            then "/" ++ toString f.BackingReader.getLineCount else "").length ∧
          f.BackingReader.getLineCount ≠ 1) ∨
        ((if f.BackingReader.showLineCount
            then "/" ++ toString f.BackingReader.getLineCount else "").length = 0 ∧
          (GetLineCount MatchString f).1 ≠ 1)) ↔
        ((f.BackingReader.showLineCount = true ∧ f.BackingReader.getLineCount ≠ 1) ∨
          (f.BackingReader.showLineCount = false ∧ (GetLineCount MatchString f).1 ≠ 1)) := by
      by_cases hshow : f.BackingReader.showLineCount
      · simp only [hshow, ite_true, String.length_append, hslash]
        constructor
        · rintro (⟨_, hb⟩ | ⟨hlen0, _⟩)
          · exact Or.inl ⟨trivial, hb⟩
          · omega
        · rintro (⟨_, hb⟩ | ⟨hfalse, _⟩)
          · exact Or.inl ⟨by omega, hb⟩
          · cases hfalse
      · rw [Bool.not_eq_true] at hshow
        simp only [hshow, Bool.false_eq_true, ite_false, String.length]
        simp
    simp only [createStatus, h, ite_false, if_neg, formatIndex_fromLength, hfloor, hiff]

theorem claim_C5_status_text_witness :
    sampleEmptyReader.BackingReader.getLineCount = 0 ∧
    (createStatus sampleMatch sampleEmptyReader none).1 = "Filtered: No input lines" :=
  ⟨rfl, (claim_C5_status_text sampleMatch sampleEmptyReader).1 rfl none⟩

/-- Claim C10: `FakeScreen.SetCell` leaves every cell unchanged and returns
the rune's width when the coordinates are out of bounds; when the rune is in
bounds but its width passes the right screen edge, a single space carrying
the rune's style is written at that cell instead of the rune; and in every
case the return value is the rune's width. -/
theorem claim_C10_fakescreen_setcell {Style : Type} (Width : Char → Int)
    (screen : FakeScreen Style) (column row : Int) (styledRune : StyledRune Style) :
    (FakeScreen.SetCell Width screen column row styledRune).1 = Width styledRune.rune ∧
    ((column < 0 ∨ row < 0 ∨ screen.width ≤ column ∨ screen.height ≤ row) →
      (FakeScreen.SetCell Width screen column row styledRune).2 = screen) ∧
    (0 ≤ column → column < screen.width → 0 ≤ row → row < screen.height →
      screen.width < column + Width styledRune.rune →
      (FakeScreen.SetCell Width screen column row styledRune).2 =
        screen.storeCell row column (NewStyledRune ' ' styledRune.style) ∧
      ∀ rowList, screen.cells.get? row.toNat = some rowList →
        column.toNat < rowList.length →
        (FakeScreen.SetCell Width screen column row styledRune).2.cells.get? row.toNat =
            some (rowList.set column.toNat (NewStyledRune ' ' styledRune.style)) ∧
          (rowList.set column.toNat
              (NewStyledRune ' ' styledRune.style)).get? column.toNat =
            some (NewStyledRune ' ' styledRune.style)) := by
  refine ⟨?_, ?_, ?_⟩
  · unfold FakeScreen.SetCell
    split_ifs <;> rfl
  · intro hoob
    unfold FakeScreen.SetCell
    split_ifs <;> first | rfl | omega
  · intro h1 h2 h3 h4 h5
    have heq : FakeScreen.SetCell Width screen column row styledRune =
        (Width styledRune.rune,
          screen.storeCell row column (NewStyledRune ' ' styledRune.style)) := by
      unfold FakeScreen.SetCell
      rw [if_neg (by omega), if_neg (by omega), if_neg (by omega), if_neg (by omega),
        if_pos h5]
    refine ⟨by rw [heq], ?_⟩
    intro rowList hrow hcol
    have hrlt : row.toNat < screen.cells.length := by
      have := List.get?_eq_some.mp hrow
      exact this.1
    have hd : screen.cells.getD row.toNat [] = rowList := by
      simp [List.getD_eq_getElem?_getD, ← List.get?_eq_getElem?, hrow]
    constructor
    · rw [heq]
      simp only [FakeScreen.storeCell, hd]
      rw [List.get?_eq_getElem?, List.getElem?_set]
      simp [hrlt]
    · rw [List.get?_eq_getElem?, List.getElem?_set]
      simp [hcol]

theorem claim_C10_fakescreen_setcell_witness :
    ((0 : Int) ≤ 2 ∧ (NewFakeScreen (0 : Int) 3 2).width < 2 + 2) ∧
    (FakeScreen.SetCell (fun _ => (2 : Int)) (NewFakeScreen (0 : Int) 3 2) 2 0
        { rune := 'x', style := (7 : Int) }).2 =
      (NewFakeScreen (0 : Int) 3 2).storeCell 0 2 (NewStyledRune ' ' (7 : Int)) :=
  ⟨⟨by decide, by decide⟩,
    ((claim_C10_fakescreen_setcell (fun _ => (2 : Int)) (NewFakeScreen (0 : Int) 3 2) 2 0
        { rune := 'x', style := (7 : Int) }).2.2
      (by decide) (by decide) (by decide) (by decide) (by decide)).1⟩

end Claims

end Moor
